import Mathlib

/-!
Shallow embedding of the `ucremote3loxone` driver (files `config.py`, `client.py`,
`driver.py`, `exceptions.py`) together with the fragment of Python's
`urllib.parse` (`urljoin` / `urlsplit` / `urlunsplit`) that `client.py` calls.

Strings are modelled by Lean `String`; all string algorithms are implemented
over the underlying character lists (`String.data`) so that proofs can proceed
by list induction and witnesses evaluate in the kernel.  Python `str.strip`,
`str.lower`, `str.startswith`, `str.lstrip("/")` and `str.split(":", 2)` are
embedded for the ASCII inputs the driver handles.  The HTTP session is a
parameter (an oracle from URL to status/body or an unreachable-host error),
mirroring the injectable `session` object of `LoxoneClient`; `json.loads` is
likewise a parameter of `fetch_structure`.
-/

namespace UCR3

/-! ## Python string primitives over character lists -/

/-- Whitespace characters stripped by Python's `str.strip()` (ASCII fragment). -/
def isSpaceChar (c : Char) : Bool :=
  c = ' ' || c = '\t' || c = '\n' || c = '\r' || c = '\x0b' || c = '\x0c'

/-- Python `str.strip()` on the character list. -/
def stripL (l : List Char) : List Char :=
  ((l.dropWhile isSpaceChar).reverse.dropWhile isSpaceChar).reverse

/-- Python `str.strip()`. -/
def pyStrip (s : String) : String := String.mk (stripL s.data)

/-- Python `str.lower()` (ASCII fragment, matching the driver's gesture names). -/
def pyLower (s : String) : String := String.mk (s.data.map Char.toLower)

/-- Python `s.startswith(p)`. -/
def pyStartsWith (s p : String) : Bool := p.data.isPrefixOf s.data

/-- Python `s.endswith(p)`. -/
def pyEndsWith (s p : String) : Bool := p.data.isSuffixOf s.data

/-- Python `s.lstrip("/")` on the character list. -/
def lstripSlashL (l : List Char) : List Char := l.dropWhile (· = '/')

/-- Python `s.lstrip("/")`. -/
def pyLstripSlash (s : String) : String := String.mk (lstripSlashL s.data)

/-- Split a character list at every occurrence of `sep` (Python `str.split(sep)`
with a one-character separator; the result is never empty). -/
def splitCharL (sep : Char) : List Char → List (List Char)
  | [] => [[]]
  | c :: cs =>
    if c = sep then [] :: splitCharL sep cs
    else
      match splitCharL sep cs with
      | [] => [[c]]
      | h :: t => (c :: h) :: t

/-- Join character lists with a one-character separator (Python `sep.join`). -/
def joinCharL (sep : Char) : List (List Char) → List Char
  | [] => []
  | [p] => p
  | p :: ps => p ++ sep :: joinCharL sep ps

/-- Python `s.split(":")` as a list of strings. -/
def splitColon (s : String) : List String :=
  (splitCharL ':' s.data).map String.mk

/-- Python `s.split(":", 2)`: at most two splits, the third part keeps
its remaining colons. -/
def splitColonMax2 (s : String) : List String :=
  match splitCharL ':' s.data with
  | a :: b :: c :: rest => [String.mk a, String.mk b, String.mk (joinCharL ':' (c :: rest))]
  | parts => parts.map String.mk

/-- Rejoin colon-separated segments (inverse of `splitColon`). -/
def rejoinColon (parts : List String) : String :=
  String.mk (joinCharL ':' (parts.map String.data))

/-! ## `urllib.parse` fragment

The embedding mirrors CPython's `urlsplit`/`urlunsplit`/`urljoin` for URLs
without query (`?`) and fragment (`#`) markers, which is the shape of every
URL the driver builds (base URL plus relative command path).  Queries and
fragments are not split off: for inputs free of `?` and `#` the functions
below agree with CPython character for character. -/

/-- An ASCII letter (CPython's `url[0].isascii() and url[0].isalpha()`). -/
def isAsciiLetter (c : Char) : Bool :=
  (65 ≤ c.toNat && c.toNat ≤ 90) || (97 ≤ c.toNat && c.toNat ≤ 122)

/-- Membership in CPython's `scheme_chars`
(ASCII letters, digits, `+`, `-`, `.`). -/
def isSchemeChar (c : Char) : Bool :=
  isAsciiLetter c || (48 ≤ c.toNat && c.toNat ≤ 57) || c = '+' || c = '-' || c = '.'

/-- A valid scheme token: nonempty, leading ASCII letter, scheme characters. -/
def validSchemeToken (l : List Char) : Bool :=
  match l with
  | [] => false
  | c :: _ => isAsciiLetter c && l.all isSchemeChar

/-- CPython scheme detection: the text before the first `:` when it is a valid
scheme token.  Returns the lowercased scheme and the remainder after the `:`. -/
def schemeSplitL (url : List Char) : Option (List Char × List Char) :=
  match splitCharL ':' url with
  | cand :: r0 :: rest =>
    if validSchemeToken cand then
      some (cand.map Char.toLower, joinCharL ':' (r0 :: rest))
    else none
  | _ => none

/-- Character terminating the network-location part of a URL. -/
def isNetlocEnd (c : Char) : Bool := c = '/' || c = '?' || c = '#'

/-- CPython `urlsplit` (scheme, netloc, path), with `default_scheme` playing the
role of the `scheme` argument `urljoin` passes. -/
def urlsplitL (url : List Char) (default_scheme : List Char) :
    List Char × List Char × List Char :=
  let (scheme, rest) :=
    match schemeSplitL url with
    | some (s, r) => (s, r)
    | none => (default_scheme, url)
  if rest.take 2 = ['/', '/'] then
    let after := rest.drop 2
    let netloc := after.takeWhile (fun c => !isNetlocEnd c)
    (scheme, netloc, after.drop netloc.length)
  else
    (scheme, [], rest)

/-- CPython `urlunsplit` restricted to (scheme, netloc, path). -/
def urlunsplitL (scheme netloc path : List Char) : List Char :=
  let url :=
    if netloc ≠ [] ∨ path.take 2 = ['/', '/'] then
      let p := if path ≠ [] ∧ path.take 1 ≠ ['/'] then '/' :: path else path
      '/' :: '/' :: (netloc ++ p)
    else path
  if scheme ≠ [] then scheme ++ ':' :: url else url

/-- `urllib.parse.uses_relative`. -/
def uses_relative : List (List Char) :=
  ["", "ftp", "http", "gopher", "nntp", "imap", "wais", "file", "https", "shttp",
   "mms", "prospero", "rtsp", "rtspu", "sftp", "svn", "svn+ssh", "ws", "wss"].map String.data

/-- `urllib.parse.uses_netloc`. -/
def uses_netloc : List (List Char) :=
  ["", "ftp", "http", "gopher", "nntp", "telnet", "imap", "wais", "file", "mms",
   "https", "shttp", "snews", "prospero", "rtsp", "rtspu", "rsync", "svn",
   "svn+ssh", "sftp", "nfs", "git", "git+ssh", "ws", "wss", "itms-services"].map String.data

/-- Drop empty interior segments but keep the final one
(CPython's `segments[1:-1] = filter(None, segments[1:-1])`, applied to the
tail of the segment list). -/
def filterKeepLast : List (List Char) → List (List Char)
  | [] => []
  | [a] => [a]
  | a :: rest => if a = [] then filterKeepLast rest else a :: filterKeepLast rest

/-- CPython's dot-segment resolution loop (`'..'` pops, `'.'` is skipped). -/
def resolveDots : List (List Char) → List (List Char) → List (List Char)
  | [], acc => acc
  | seg :: rest, acc =>
    if seg = String.data ".." then resolveDots rest acc.dropLast
    else if seg = String.data "." then resolveDots rest acc
    else resolveDots rest (acc ++ [seg])

/-- CPython `urljoin` on character lists (query/fragment-free fragment). -/
def urljoinL (base url : List Char) : List Char :=
  if base = [] then url
  else if url = [] then base
  else
    let b := urlsplitL base []
    let u := urlsplitL url b.1
    if ¬ (u.1 = b.1 ∧ uses_relative.contains u.1) then url
    else if uses_netloc.contains u.1 ∧ u.2.1 ≠ [] then
      urlunsplitL u.1 u.2.1 u.2.2
    else
      let netloc := if uses_netloc.contains u.1 then b.2.1 else u.2.1
      let path := u.2.2
      if path = [] then urlunsplitL u.1 netloc b.2.2
      else
        let base_parts0 := splitCharL '/' b.2.2
        let base_parts :=
          if base_parts0.getLast? ≠ some [] then base_parts0.dropLast else base_parts0
        let segments :=
          if path.take 1 = ['/'] then splitCharL '/' path
          else
            match base_parts ++ splitCharL '/' path with
            | [] => []
            | s0 :: srest => s0 :: filterKeepLast srest
        let resolved := resolveDots segments []
        let resolved :=
          if segments.getLast? = some (String.data "..") ∨
             segments.getLast? = some (String.data ".") then
            resolved ++ [[]]
          else resolved
        let joined := joinCharL '/' resolved
        urlunsplitL u.1 netloc (if joined = [] then ['/'] else joined)

/-- `urllib.parse.urljoin` on strings. -/
def urljoin (base url : String) : String := String.mk (urljoinL base.data url.data)

/-- The network location (host) component of a URL, via `urlsplit`. -/
def urlHost (url : String) : String := String.mk (urlsplitL url.data []).2.1

/-! ## Error model (`exceptions.py`)

`DriverError` is the base class; `ConfigurationError` derives from it.  The
embedding distinguishes the transport failures (HTTP status `>= 400`,
unreachable host, bad structure body — the spec's `TransportError`), the
configuration failures (`ConfigurationError`), and the remaining plain
`DriverError` argument guards raised before any transport call. -/

inductive DriverErr where
  | transport (msg : String)
  | configuration (msg : String)
  | usage (msg : String)
deriving Repr, DecidableEq

/-! ## `config.py` -/

/-- `ButtonAction`: the gestures supported by the Remote 3. -/
inductive ButtonAction where
  | single_press
  | double_press
  | long_press
deriving Repr, DecidableEq

/-- The `value` of each `ButtonAction` enum member. -/
def ButtonAction.value : ButtonAction → String
  | .single_press => "single_press"
  | .double_press => "double_press"
  | .long_press => "long_press"

/-- `ButtonAction.from_value`: enum lookup by value, raising
`ConfigurationError` on unknown input. -/
def ButtonAction.from_value (value : String) : Except DriverErr ButtonAction :=
  if value = "single_press" then .ok .single_press
  else if value = "double_press" then .ok .double_press
  else if value = "long_press" then .ok .long_press
  else .error (.configuration ("Unsupported button action: " ++ value))

/-- `ButtonMapping`: frozen dataclass fields. -/
structure ButtonMapping where
  button : String
  action : ButtonAction
  commands : List String
deriving Repr, DecidableEq

/-- `ButtonMapping(...)` constructor call including `__post_init__` validation:
the button identifier and the commands tuple must be nonempty. -/
def ButtonMapping.make (button : String) (action : ButtonAction)
    (commands : List String) : Except DriverErr ButtonMapping :=
  if button = "" then
    .error (.configuration "Button mapping requires a button identifier")
  else if commands = [] then
    .error (.configuration
      ("Button mapping for " ++ button ++ "/" ++ action.value ++ " must define commands"))
  else .ok ⟨button, action, commands⟩

/-- `DriverConfig`: frozen dataclass fields. -/
structure DriverConfig where
  miniserver_url : String
  username : String
  password : String
  remote_name : String
  mappings : List ButtonMapping
deriving Repr, DecidableEq

/-- `DriverConfig(...)` constructor call including `__post_init__` validation:
the four string settings must be nonempty. -/
def DriverConfig.make (miniserver_url username password remote_name : String)
    (mappings : List ButtonMapping) : Except DriverErr DriverConfig :=
  if miniserver_url = "" then .error (.configuration "miniserver_url must be provided")
  else if username = "" then .error (.configuration "username must be provided")
  else if password = "" then .error (.configuration "password must be provided")
  else if remote_name = "" then .error (.configuration "remote_name must be provided")
  else .ok ⟨miniserver_url, username, password, remote_name, mappings⟩

/-- The invariant `__post_init__` establishes for every constructed value. -/
def DriverConfig.WF (cfg : DriverConfig) : Prop :=
  cfg.miniserver_url ≠ "" ∧ cfg.username ≠ "" ∧ cfg.password ≠ "" ∧
  cfg.remote_name ≠ "" ∧ ∀ m ∈ cfg.mappings, m.button ≠ "" ∧ m.commands ≠ []

instance (cfg : DriverConfig) : Decidable cfg.WF := by
  unfold DriverConfig.WF; infer_instance

/-- The match test of `DriverConfig.resolve`'s generator expression. -/
def matchesEvent (button : String) (action : ButtonAction) (m : ButtonMapping) : Bool :=
  m.button = button && m.action = action

/-- `DriverConfig.resolve`: all mappings matching the button/action pair, in
insertion order, raising `ConfigurationError` when none match. -/
def DriverConfig.resolve (cfg : DriverConfig) (button : String)
    (action : ButtonAction) : Except DriverErr (List ButtonMapping) :=
  let found := cfg.mappings.filter (matchesEvent button action)
  if found ≠ [] then .ok found
  else .error (.configuration
    ("No mapping defined for button " ++ button ++ " and action " ++ action.value))

/-! ## JSON values

Values produced by `json.loads`: the structure document, and the entries of the
`mappings` section consumed by `_parse_mapping`.  Python dicts coming from JSON
have string keys; insertion order is the key order of the source text. -/

inductive JVal where
  | null
  | bool (b : Bool)
  | num (n : Int)
  | str (s : String)
  | arr (elems : List JVal)
  | obj (fields : List (String × JVal))
deriving Repr

/-- Python `dict.get(key)` (first binding wins; JSON objects have unique keys). -/
def jGet (fields : List (String × JVal)) (key : String) : Option JVal :=
  match fields.find? (fun p => p.1 = key) with
  | some p => some p.2
  | none => none

/-- Python truthiness of a JSON value. -/
def truthy : JVal → Bool
  | .null => false
  | .bool b => b
  | .num n => n != 0
  | .str s => s != ""
  | .arr l => !l.isEmpty
  | .obj l => !l.isEmpty

/-- Python `a or b` for an optional left operand (`dict.get` result). -/
def pyOr (a : Option JVal) (b : JVal) : JVal :=
  match a with
  | some v => if truthy v then v else b
  | none => b

/-- Python `str(...)` on a JSON value.  Containers are rendered by `repr` in
Python; the driver never formats a container (ids and names are scalars), so
those cases carry an opaque marker and no theorem below depends on them. -/
def pyStr : JVal → String
  | .null => "None"
  | .bool true => "True"
  | .bool false => "False"
  | .num n => toString n
  | .str s => s
  | .arr _ => "<sequence>"
  | .obj _ => "<mapping>"

/-- Python `str(x)` where `x` may be `None` (`dict.get` miss). -/
def pyStrOpt (a : Option JVal) : String :=
  match a with
  | some v => pyStr v
  | none => "None"

/-! ## `client.py` -/

/-- The response shape the client reads: a status code and, when present, the
body (`getattr(response, "data", b"")`; bytes are decoded with
`errors="replace"`, which always succeeds, so the body is a string here). -/
structure HttpResponse where
  status_code : Nat
  data : Option String
deriving Repr, DecidableEq

/-- The injected HTTP session: one GET per URL, returning a response or raising
`DriverError` when the host is unreachable. -/
def Session := String → Except DriverErr HttpResponse

/-- `LoxoneClient` state after `__init__` (credentials kept, base URL already
normalized; the fixed numeric timeout plays no role in any claim). -/
structure LoxoneClient where
  base_url : String
  username : String
  password : String
deriving Repr, DecidableEq

/-- The `__init__` base URL normalization: append `/` unless already present. -/
def normBase (base_url : String) : String :=
  if pyEndsWith base_url "/" then base_url else base_url ++ "/"

/-- `LoxoneClient.__init__`: rejects an empty base URL, otherwise normalizes it
to end with `/`. -/
def LoxoneClient.make (base_url username password : String) :
    Except DriverErr LoxoneClient :=
  if base_url = "" then
    .error (.usage "A base_url must be supplied for the Loxone client")
  else
    .ok ⟨normBase base_url, username, password⟩

/-- `LoxoneClient.execute_command`: returns the list of URLs passed to
`session.get` (the transport trace — empty or a singleton) and the error, if
any.  A status of 400 or more raises `DriverError`. -/
def LoxoneClient.execute_command (c : LoxoneClient) (session : Session)
    (command : String) : List String × Option DriverErr :=
  if command = "" then
    ([], some (.usage "Cannot execute an empty command"))
  else
    match session (urljoin c.base_url (pyLstripSlash command)) with
    | .error e => ([urljoin c.base_url (pyLstripSlash command)], some e)
    | .ok resp =>
      if 400 ≤ resp.status_code then
        ([urljoin c.base_url (pyLstripSlash command)], some (.transport
          ("Loxone command " ++ command ++ " failed with status " ++
           toString resp.status_code)))
      else ([urljoin c.base_url (pyLstripSlash command)], none)

/-- `LoxoneClient.send_virtual_input`: guards the arguments, composes the
`dev/sps/io/...` path and delegates to `execute_command`. -/
def LoxoneClient.send_virtual_input (c : LoxoneClient) (session : Session)
    (control_uuid value : String) : List String × Option DriverErr :=
  if control_uuid = "" then ([], some (.usage "control_uuid must not be empty"))
  else if value = "" then ([], some (.usage "value must not be empty"))
  else c.execute_command session ("dev/sps/io/" ++ control_uuid ++ "/" ++ value)

/-- `LoxoneClient.fetch_structure`: GET the structure path, fail on status
`>= 400`, an empty (or whitespace-only) body, or a body `json.loads` rejects;
otherwise return the parsed document.  `parseJson` stands for `json.loads`. -/
def LoxoneClient.fetch_structure (c : LoxoneClient) (session : Session)
    (parseJson : String → Option JVal) (path : String) : Except DriverErr JVal :=
  if path = "" then .error (.usage "A structure path must be provided")
  else
    match session (urljoin c.base_url (pyLstripSlash path)) with
    | .error e => .error e
    | .ok resp =>
      if 400 ≤ resp.status_code then
        .error (.transport
          ("Fetching miniserver structure failed with status " ++
           toString resp.status_code))
      else
        if pyStrip (resp.data.getD "") = "" then
          .error (.transport "Miniserver structure response was empty")
        else
          match parseJson (resp.data.getD "") with
          | none => .error (.transport "Miniserver structure response was not valid JSON")
          | some doc => .ok doc

/-! ## `driver.py`: command interpretation and dispatch -/

/-- The parse result of a single nonempty trimmed command string: either an
opaque miniserver command or a structured virtual-input instruction.  This is
the classification `_dispatch_commands` / `_handle_virtual_input` perform. -/
inductive Action where
  | raw (text : String)
  | virtual_input (control_id value : String)
deriving Repr, DecidableEq

/-- Interpret one nonempty trimmed command: a string with the literal
`virtual_input:` head is split by `command.split(":", 2)` and must unpack into
three parts (`_handle_virtual_input`), else `ConfigurationError`; any other
string passes through as a raw command (`_dispatch_commands`). -/
def interpret (command : String) : Except DriverErr Action :=
  if pyStartsWith command "virtual_input:" then
    match splitColonMax2 command with
    | [_, control_uuid, value] => .ok (.virtual_input control_uuid value)
    | _ => .error (.configuration
        "virtual_input commands must be formatted as virtual_input:<uuid>:<value>")
  else .ok (.raw command)

/-- One iteration of the `_dispatch_commands` loop: trim, skip when empty,
interpret, and issue the transport call for the resulting action. -/
def dispatchOne (client : LoxoneClient) (session : Session) (command : String) :
    List String × Option DriverErr :=
  let command := pyStrip command
  if command = "" then ([], none)
  else
    match interpret command with
    | .error e => ([], some e)
    | .ok (.raw text) => client.execute_command session text
    | .ok (.virtual_input control_uuid value) =>
      client.send_virtual_input session control_uuid value

/-- `_dispatch_commands`: commands in order, stopping at the first error. -/
def dispatch_commands (client : LoxoneClient) (session : Session) :
    List String → List String × Option DriverErr
  | [] => ([], none)
  | c :: cs =>
    match dispatchOne client session c with
    | (t, some e) => (t, some e)
    | (t, none) =>
      let r := dispatch_commands client session cs
      (t ++ r.1, r.2)

/-- The `handle_event` loop body: each resolved mapping's commands in order,
stopping at the first error. -/
def dispatchMappings (client : LoxoneClient) (session : Session) :
    List ButtonMapping → List String × Option DriverErr
  | [] => ([], none)
  | m :: ms =>
    match dispatch_commands client session m.commands with
    | (t, some e) => (t, some e)
    | (t, none) =>
      let r := dispatchMappings client session ms
      (t ++ r.1, r.2)

/-- The gesture argument of `handle_event`: a `ButtonAction` or free text. -/
inductive ActionInput where
  | action (a : ButtonAction)
  | text (s : String)
deriving Repr, DecidableEq

/-- `Remote3LoxoneDriver.handle_event`: normalize a textual gesture, resolve
the mappings, dispatch every command; the transport trace is the list of URLs
passed to `session.get`, the second component the propagated error, if any. -/
def handle_event (client : LoxoneClient) (session : Session)
    (cfg : DriverConfig) (button : String) (input : ActionInput) :
    List String × Option DriverErr :=
  let parsed :=
    match input with
    | .action a => Except.ok a
    | .text s => ButtonAction.from_value (pyLower (pyStrip s))
  match parsed with
  | .error e => ([], some e)
  | .ok action =>
    match cfg.resolve button action with
    | .error e => ([], some e)
    | .ok ms => dispatchMappings client session ms

/-! ## `driver.py`: runtime registration -/

/-- `Remote3LoxoneDriver.register_button`, as a function from the current
config to the replacement config (or the propagated error).  When the pair is
already mapped, the comprehension `m if m is not primary else ...` replaces the
one object `existing[0]`, i.e. the first matching entry; distinct
`ButtonMapping` objects are never aliased in the mappings tuple, so this is the
entry at the first matching index. -/
def register_button (cfg : DriverConfig) (button : String) (action : ButtonAction)
    (commands : List String) : Except DriverErr DriverConfig :=
  match cfg.resolve button action with
  | .error _ => do
    let target ← ButtonMapping.make button action commands
    DriverConfig.make cfg.miniserver_url cfg.username cfg.password
      cfg.remote_name (cfg.mappings ++ [target])
  | .ok existing =>
    match existing with
    | [] =>
      -- `existing[0]` on an empty tuple; unreachable because `resolve`
      -- never returns an empty match list.
      .error (.usage "list index out of range")
    | primary :: _ => do
      let idx := cfg.mappings.findIdx (matchesEvent button action)
      let target ← ButtonMapping.make primary.button primary.action
        (primary.commands ++ commands)
      DriverConfig.make cfg.miniserver_url cfg.username cfg.password
        cfg.remote_name (cfg.mappings.set idx target)

/-- The driver's mutable state: the held `self._config` reference. -/
structure DriverState where
  config : DriverConfig
deriving Repr, DecidableEq

/-- The `register_button` method run against the driver object: the only write
to `self._config` is the final assignment, so an error raised while building
the replacement leaves the held config untouched. -/
def register_button_run (st : DriverState) (button : String)
    (action : ButtonAction) (commands : List String) :
    DriverState × Option DriverErr :=
  match register_button st.config button action commands with
  | .ok cfg => (⟨cfg⟩, none)
  | .error e => (st, some e)

/-! ## `config.py`: `_parse_mapping` -/

/-- Python truthiness of a `dict.get` result (`None` is falsy). -/
def truthyOpt (a : Option JVal) : Bool :=
  match a with
  | some v => truthy v
  | none => false

/-- `_parse_mapping`: build a `ButtonMapping` from one external `mappings`
entry.  A plain string `commands` value is wrapped as a one-element tuple as
is; an iterable (JSON array, or JSON object iterated by its keys) has each
element passed through `str(...).strip()` with falsy (empty) results dropped;
anything else raises `ConfigurationError`. -/
def parse_mapping (data : List (String × JVal)) : Except DriverErr ButtonMapping :=
  let button := pyStrip (pyStr ((jGet data "button").getD (.str "")))
  let action_value := pyLower (pyStrip (pyStr ((jGet data "action").getD (.str ""))))
  let command_values : Except DriverErr (List String) :=
    match jGet data "commands" with
    | some (.str s) => .ok [s]
    | some (.arr xs) =>
      .ok ((xs.map (fun c => pyStrip (pyStr c))).filter (fun c => c ≠ ""))
    | some (.obj fields) =>
      .ok ((fields.map (fun p => pyStrip p.1)).filter (fun c => c ≠ ""))
    | _ => .error (.configuration
        ("Commands for button " ++ button ++ " must be either a string or an iterable"))
  match command_values with
  | .error e => .error e
  | .ok cmds => do
    let action ← ButtonAction.from_value action_value
    ButtonMapping.make button action cmds

/-! ## `driver.py`: structure discovery -/

/-- `LoxoneFunction`: a function exposed by the miniserver. -/
structure LoxoneFunction where
  name : String
  uuid : String
  type : String
  room : Option String
  category : Option String
deriving Repr, DecidableEq

/-- The list branch of `_extract_controls`: each item must be a dict
(otherwise `item.get` raises at runtime, modelled by `none`); the key is the
item's `uuid` value when the key is present, else `control_{index}`. -/
def extractListControls : List JVal → Nat → Option (List (JVal × JVal))
  | [], _ => some []
  | .obj fields :: rest, i =>
    let key := (jGet fields "uuid").getD (.str ("control_" ++ toString i))
    (extractListControls rest (i + 1)).map ((key, JVal.obj fields) :: ·)
  | _, _ => none

/-- `_extract_controls`: the controls table as an association list, accepting
the id-keyed mapping form or the list form, and `{}` otherwise. -/
def extract_controls (doc : List (String × JVal)) : Option (List (JVal × JVal)) :=
  match jGet doc "controls" with
  | some (.obj fields) => some (fields.map (fun p => (JVal.str p.1, p.2)))
  | some (.arr items) => extractListControls items 0
  | _ => some []

/-- `_map_entities`: name lookup table for `rooms` / `categories`, accepting
mapping or list form and ignoring entries without both an id and a name. -/
def map_entities (doc : List (String × JVal)) (key : String) : List (String × String) :=
  match jGet doc key with
  | some (.obj fields) =>
    fields.filterMap (fun p =>
      match p.2 with
      | .obj info =>
        if truthyOpt (jGet info "name") then some (p.1, pyStrOpt (jGet info "name"))
        else none
      | _ => none)
  | some (.arr items) =>
    items.filterMap (fun item =>
      match item with
      | .obj fields =>
        if truthyOpt (jGet fields "uuid") && truthyOpt (jGet fields "name") then
          some (pyStrOpt (jGet fields "uuid"), pyStrOpt (jGet fields "name"))
        else none
      | _ => none)
  | _ => []

/-- The allow-list carried by one remotes entry: the `controls` value as a set
of id strings when it is a list or a mapping, absent otherwise. -/
def remoteAllowList (remote_fields : List (String × JVal)) : Option (List String) :=
  match jGet remote_fields "controls" with
  | some (.arr xs) => some (xs.map pyStr)
  | some (.obj fields) => some (fields.map (·.1))
  | _ => none

/-- The loop of `_controls_for_remote`: skip non-dict entries and entries whose
name differs from the remote name; a name match without a usable `controls`
value also falls through to the next entry. -/
def controlsScan (remote_name : String) : List JVal → Option (List String)
  | [] => none
  | r :: rest =>
    match r with
    | .obj fields =>
      if pyStrOpt (jGet fields "name") = remote_name then
        match remoteAllowList fields with
        | some s => some s
        | none => controlsScan remote_name rest
      else controlsScan remote_name rest
    | _ => controlsScan remote_name rest

/-- The iterable `_controls_for_remote` walks: the values of a mapping-form
`remotes` table, the items of a list form, absent otherwise. -/
def remotesEntries (doc : List (String × JVal)) : Option (List JVal) :=
  match jGet doc "remotes" with
  | some (.obj fields) => some (fields.map (·.2))
  | some (.arr items) => some items
  | _ => none

/-- `_controls_for_remote`: resolve the optional allow-list from the `remotes`
table (mapping form iterates the values, list form the items); `none` means
no filtering. -/
def controls_for_remote (doc : List (String × JVal)) (remote_name : String) :
    Option (List String) :=
  match remotesEntries doc with
  | some entries => controlsScan remote_name entries
  | none => none

/-- A remotes entry that passes both guards of the `_controls_for_remote`
loop: a dict whose `name` renders equal to the configured remote name. -/
def nameMatches (remote_name : String) (r : JVal) : Bool :=
  match r with
  | .obj fields => pyStrOpt (jGet fields "name") = remote_name
  | _ => false

/-- Python `uuid not in allowed_controls` (negated): membership of a JSON key
in a set of strings.  Non-string scalars never equal a string; unhashable
container keys raise `TypeError` in Python and are modelled as non-members. -/
def jvalInStrSet (u : JVal) (s : List String) : Bool :=
  match u with
  | .str x => s.contains x
  | _ => false

/-- Python `table.get(key)` for the string-keyed name tables: a missing key
(`None`) or a non-string key never matches. -/
def lookupName (table : List (String × String)) (key : Option JVal) : Option String :=
  match key with
  | some (.str s) => (table.find? (fun p => p.1 = s)).map (·.2)
  | _ => none

/-- The skip test of the discovery loop, from the resolved allow-list. -/
def passFilter (allowed : Option (List String)) (uuid : JVal) : Bool :=
  match allowed with
  | none => true
  | some s => jvalInStrSet uuid s

/-- The body of the discovery loop for one control entry. -/
def buildFunction (rooms cats : List (String × String)) (uuid : JVal)
    (control : List (String × JVal)) : LoxoneFunction :=
  { name := pyStr (pyOr (jGet control "name") uuid)
    uuid := pyStr (pyOr (jGet control "uuidAction")
      (pyOr (jGet control "uuid") (pyOr (jGet control "uuidCmd") uuid)))
    type := pyStr (pyOr (jGet control "type") (.str ""))
    room := lookupName rooms (jGet control "room")
    category := lookupName cats (jGet control "category") }

/-- The discovery loop: filtered-out controls are skipped before any attribute
access; a surviving non-dict control raises at runtime (`none`). -/
def buildEntries (rooms cats : List (String × String)) (pass : JVal → Bool) :
    List (JVal × JVal) → Option (List LoxoneFunction)
  | [] => some []
  | (uuid, control) :: rest =>
    if pass uuid then
      match control with
      | .obj fields =>
        (buildEntries rooms cats pass rest).map (buildFunction rooms cats uuid fields :: ·)
      | _ => none
    else buildEntries rooms cats pass rest

/-- The sort key `(fn.room or "", fn.name.lower())`. -/
def sortKey (fn : LoxoneFunction) : String × String :=
  (fn.room.getD "", pyLower fn.name)

/-- Python's `<` on strings: lexicographic comparison by code point. -/
def lexLt : List Char → List Char → Bool
  | _, [] => false
  | [], _ :: _ => true
  | a :: as, b :: bs =>
    if a.toNat < b.toNat then true
    else if b.toNat < a.toNat then false
    else lexLt as bs

/-- Python `a < b` for strings. -/
def strLtB (a b : String) : Bool := lexLt a.data b.data

/-- Python `a <= b` for strings. -/
def strLeB (a b : String) : Bool := strLtB a b || a == b

/-- The ascending lexicographic order `list.sort` applies to the key pairs
(Python tuple comparison over Python string comparison). -/
def sortLe (a b : LoxoneFunction) : Bool :=
  strLtB (sortKey a).1 (sortKey b).1 ||
  ((sortKey a).1 == (sortKey b).1 && strLeB (sortKey a).2 (sortKey b).2)

/-- Insert into a sorted list, before the first element not below the new one
(the standard stable insertion step). -/
def insertSorted {α : Type} (le : α → α → Bool) (x : α) : List α → List α
  | [] => [x]
  | y :: ys => if le x y then x :: y :: ys else y :: insertSorted le x ys

/-- Stable ascending sort.  For a total, transitive comparison every stable
sort computes the same list, so this models Python's stable `list.sort`. -/
def pySort {α : Type} (le : α → α → Bool) : List α → List α
  | [] => []
  | x :: xs => insertSorted le x (pySort le xs)

/-- `discover_miniserver_functions` after the fetch, minus the final sort. -/
def discoverUnsorted (doc : List (String × JVal)) (remote_name : String) :
    Option (List LoxoneFunction) :=
  match extract_controls doc with
  | none => none
  | some controls =>
    if controls.isEmpty then some []
    else
      buildEntries (map_entities doc "rooms") (map_entities doc "categories")
        (passFilter (controls_for_remote doc remote_name)) controls

/-- `discover_miniserver_functions` after the fetch: build, then sort by
`(room or "", name.lower())` (Python's stable `list.sort`). -/
def discoverFromStructure (doc : List (String × JVal)) (remote_name : String) :
    Option (List LoxoneFunction) :=
  (discoverUnsorted doc remote_name).map (pySort sortLe)

/-- The full `discover_miniserver_functions` method: fetch the structure
document, then resolve the function list (a non-dict document, like malformed
entries, fails at runtime: `none`). -/
def discover_miniserver_functions (client : LoxoneClient) (session : Session)
    (parseJson : String → Option JVal) (remote_name structure_path : String) :
    Except DriverErr (Option (List LoxoneFunction)) :=
  match client.fetch_structure session parseJson structure_path with
  | .error e => .error e
  | .ok (.obj fields) => .ok (discoverFromStructure fields remote_name)
  | .ok _ => .ok none

/-! ## Concrete inputs for the instantiation theorems -/

/-- A session whose every request succeeds with an empty body. -/
def sessionOK : Session := fun _ => .ok ⟨200, none⟩

/-- A session failing the first command of `configW`'s `top` mapping. -/
def sessionFail : Session := fun url =>
  if url = "http://loxone.local/dev/sps/io/uuid/on" then .ok ⟨500, none⟩
  else .ok ⟨200, none⟩

/-- The client of the repository's test fixture. -/
def clientW : LoxoneClient := ⟨"http://loxone.local/", "user", "pass"⟩

/-- The driver configuration of the repository's test fixture. -/
def configW : DriverConfig :=
  ⟨"http://loxone.local", "user", "pass", "Remote 3",
   [⟨"top", .single_press, ["dev/sps/io/uuid/on", "virtual_input:other:toggle"]⟩,
    ⟨"bottom", .long_press, ["virtual_input:another-uuid:toggle"]⟩]⟩

/-- The structure document of the repository's discovery test. -/
def structureW : List (String × JVal) :=
  [("controls", .obj [
      ("uuid-1", .obj [("name", .str "Living Room Lights"), ("type", .str "Switch"),
                       ("uuidAction", .str "uuid-1-action"), ("room", .str "room-1"),
                       ("category", .str "category-1")]),
      ("uuid-2", .obj [("name", .str "Other Control"), ("type", .str "Dimmer"),
                       ("uuidAction", .str "uuid-2-action")])]),
   ("rooms", .obj [("room-1", .obj [("name", .str "Living Room")])]),
   ("categories", .obj [("category-1", .obj [("name", .str "Lighting")])]),
   ("remotes", .arr [.obj [("name", .str "Remote 3"),
                           ("controls", .arr [.str "uuid-1"])]])]

/-- A `json.loads` oracle recognizing the empty object. -/
def parseJsonW : String → Option JVal := fun text =>
  if text = "{}" then some (.obj []) else none

/-- A session answering every request with status 200 and body `{}`. -/
def sessionStructure : Session := fun _ => .ok ⟨200, some "{}"⟩

/-! ## Helper lemmas -/

theorem buttonMapping_make_ok_iff {b : String} {a : ButtonAction}
    {cs : List String} {m : ButtonMapping} :
    ButtonMapping.make b a cs = .ok m ↔ b ≠ "" ∧ cs ≠ [] ∧ m = ⟨b, a, cs⟩ := by
  unfold ButtonMapping.make
  split_ifs with h1 h2
  · simp [h1]
  · simp [h1, h2]
  · simp [h1, h2, eq_comm]

theorem driverConfig_make_ok_iff {u n p r : String} {ms : List ButtonMapping}
    {cfg : DriverConfig} :
    DriverConfig.make u n p r ms = .ok cfg ↔
      u ≠ "" ∧ n ≠ "" ∧ p ≠ "" ∧ r ≠ "" ∧ cfg = ⟨u, n, p, r, ms⟩ := by
  unfold DriverConfig.make
  split_ifs with h1 h2 h3 h4
  · simp [h1]
  · simp [h1, h2]
  · simp [h1, h2, h3]
  · simp [h1, h2, h3, h4]
  · simp [h1, h2, h3, h4, eq_comm]

theorem findIdx_append_first {α : Type} (p : α → Bool) (pre post : List α) (m : α)
    (hpre : ∀ x ∈ pre, p x = false) (hm : p m = true) :
    (pre ++ m :: post).findIdx p = pre.length := by
  induction pre with
  | nil => simp [List.findIdx_cons, hm]
  | cons a t ih =>
    have ha := hpre a (by simp)
    simp [List.findIdx_cons, ha, ih (fun x hx => hpre x (by simp [hx]))]

theorem set_at_split {α : Type} (l1 l2 : List α) (a b : α) :
    (l1 ++ a :: l2).set l1.length b = l1 ++ b :: l2 := by
  induction l1 with
  | nil => rfl
  | cons x xs ih => simp [List.set, ih]

theorem map_data_mk (l : List (List Char)) :
    (l.map String.mk).map String.data = l := by
  induction l <;> simp_all

theorem mem_insertSorted {α : Type} (le : α → α → Bool) (x z : α) (l : List α) :
    z ∈ insertSorted le x l ↔ z = x ∨ z ∈ l := by
  induction l with
  | nil => simp [insertSorted]
  | cons y ys ih =>
    by_cases h : le x y = true
    · simp [insertSorted, h]
    · simp only [insertSorted, if_neg h, List.mem_cons, ih]
      tauto

theorem pairwise_insertSorted {α : Type} (le : α → α → Bool)
    (htrans : ∀ a b c, le a b = true → le b c = true → le a c = true)
    (htot : ∀ a b, (le a b || le b a) = true)
    (x : α) (l : List α) (h : l.Pairwise (fun a b => le a b = true)) :
    (insertSorted le x l).Pairwise (fun a b => le a b = true) := by
  induction l with
  | nil => simp [insertSorted]
  | cons y ys ih =>
    rcases List.pairwise_cons.mp h with ⟨hy, hys⟩
    by_cases hxy : le x y = true
    · simp only [insertSorted, if_pos hxy]
      refine List.Pairwise.cons ?_ h
      intro z hz
      rcases List.mem_cons.mp hz with rfl | hz
      · exact hxy
      · exact htrans x y z hxy (hy z hz)
    · simp only [insertSorted, if_neg hxy]
      refine List.Pairwise.cons ?_ (ih hys)
      intro z hz
      rcases (mem_insertSorted le x z ys).mp hz with heq | hz
      · have hor := htot x y
        simp [hxy] at hor
        rw [heq]
        exact hor
      · exact hy z hz

theorem pairwise_pySort {α : Type} (le : α → α → Bool)
    (htrans : ∀ a b c, le a b = true → le b c = true → le a c = true)
    (htot : ∀ a b, (le a b || le b a) = true) (l : List α) :
    (pySort le l).Pairwise (fun a b => le a b = true) := by
  induction l with
  | nil => simp [pySort]
  | cons x xs ih => exact pairwise_insertSorted le htrans htot x _ ih

theorem perm_insertSorted {α : Type} (le : α → α → Bool) (x : α) (l : List α) :
    (insertSorted le x l).Perm (x :: l) := by
  induction l with
  | nil => exact List.Perm.refl _
  | cons y ys ih =>
    by_cases h : le x y = true
    · simp [insertSorted, h]
    · simp only [insertSorted, if_neg h]
      exact (ih.cons y).trans (List.Perm.swap x y ys)

theorem perm_pySort {α : Type} (le : α → α → Bool) (l : List α) :
    (pySort le l).Perm l := by
  induction l with
  | nil => exact List.Perm.refl _
  | cons x xs ih => exact (perm_insertSorted le x (pySort le xs)).trans (ih.cons x)

/-! ## The claims -/

/-- C4: for every config and (button, gesture) pair, `resolve` returns exactly
the mappings whose button and gesture both equal the query — all of them, in
their original insertion order (the order-preserving filter of the mappings
sequence) — and fails with a `ConfigurationError` (the `NoMapping` failure)
instead of returning an empty sequence when nothing matches. -/
theorem resolve_filters_or_fails (cfg : DriverConfig) (button : String)
    (action : ButtonAction) :
    (cfg.mappings.filter (matchesEvent button action) ≠ [] →
      cfg.resolve button action =
        .ok (cfg.mappings.filter (matchesEvent button action))) ∧
    (cfg.mappings.filter (matchesEvent button action) = [] →
      cfg.resolve button action = .error (.configuration
        ("No mapping defined for button " ++ button ++ " and action " ++
         action.value))) := by
  unfold DriverConfig.resolve
  constructor <;> intro h <;> simp [h]

/-- C4 witness: the test fixture's `top`/`single_press` pair resolves to its
single matching mapping; an unregistered pair fails with `NoMapping`. -/
theorem resolve_filters_or_fails_witness :
    DriverConfig.resolve configW "top" .single_press =
      .ok [⟨"top", .single_press, ["dev/sps/io/uuid/on", "virtual_input:other:toggle"]⟩] ∧
    DriverConfig.resolve configW "left" .double_press = .error (.configuration
      "No mapping defined for button left and action double_press") := by
  constructor
  · have h := (resolve_filters_or_fails configW "top" .single_press).1 (by decide)
    rw [h]; rfl
  · exact (resolve_filters_or_fails configW "left" .double_press).2 (by decide)

/-- C5: `register_button` on an already-mapped (button, gesture) pair yields a
new config whose entry at the first matching position has the new commands
appended to its command list, with the entry count unchanged and no duplicate
entry created; on an unmapped pair it yields the old config with one new entry
appended at the end.  In both cases a fresh `DriverConfig` value is produced
(the embedding returns it; the method swaps it into `self._config`). -/
theorem register_button_semantics (cfg : DriverConfig) (button : String)
    (action : ButtonAction) (commands : List String) (hwf : cfg.WF) :
    (∀ pre m post, cfg.mappings = pre ++ m :: post →
      (∀ x ∈ pre, matchesEvent button action x = false) →
      matchesEvent button action m = true →
      register_button cfg button action commands =
        .ok { cfg with mappings :=
          pre ++ { m with commands := m.commands ++ commands } :: post }) ∧
    ((∀ x ∈ cfg.mappings, matchesEvent button action x = false) →
      button ≠ "" → commands ≠ [] →
      register_button cfg button action commands =
        .ok { cfg with mappings := cfg.mappings ++ [⟨button, action, commands⟩] }) := by
  obtain ⟨hu, hn, hp, hr, hm⟩ := hwf
  constructor
  · intro pre m post hsplit hpre hmatch
    have hmem : m ∈ cfg.mappings := by rw [hsplit]; simp
    obtain ⟨hmb, hmc⟩ := hm m hmem
    have hfil : cfg.mappings.filter (matchesEvent button action) =
        m :: post.filter (matchesEvent button action) := by
      rw [hsplit, List.filter_append, List.filter_eq_nil_iff.mpr
        (fun x hx => by simp [hpre x hx]), List.filter_cons_of_pos hmatch]
      rfl
    have hres : cfg.resolve button action =
        .ok (m :: post.filter (matchesEvent button action)) := by
      unfold DriverConfig.resolve
      simp [hfil]
    have hidx : cfg.mappings.findIdx (matchesEvent button action) = pre.length := by
      rw [hsplit]; exact findIdx_append_first _ pre post m hpre hmatch
    unfold register_button
    rw [hres]
    simp only [hidx]
    have hmk : ButtonMapping.make m.button m.action (m.commands ++ commands) =
        .ok ⟨m.button, m.action, m.commands ++ commands⟩ :=
      buttonMapping_make_ok_iff.mpr ⟨hmb, by simp [hmc], rfl⟩
    rw [hmk]
    simp only [Bind.bind, Except.bind]
    have hset : cfg.mappings.set pre.length
        ⟨m.button, m.action, m.commands ++ commands⟩ =
        pre ++ ⟨m.button, m.action, m.commands ++ commands⟩ :: post := by
      rw [hsplit]; exact set_at_split pre post m _
    rw [hset]
    exact driverConfig_make_ok_iff.mpr ⟨hu, hn, hp, hr, rfl⟩
  · intro hnone hb hc
    have hfil : cfg.mappings.filter (matchesEvent button action) = [] :=
      List.filter_eq_nil_iff.mpr (fun x hx => by simp [hnone x hx])
    have hres : cfg.resolve button action = .error (.configuration
        ("No mapping defined for button " ++ button ++ " and action " ++
         action.value)) := by
      unfold DriverConfig.resolve
      simp [hfil]
    unfold register_button
    rw [hres]
    have hmk : ButtonMapping.make button action commands =
        .ok ⟨button, action, commands⟩ :=
      buttonMapping_make_ok_iff.mpr ⟨hb, hc, rfl⟩
    rw [hmk]
    simp only [Bind.bind, Except.bind]
    exact driverConfig_make_ok_iff.mpr ⟨hu, hn, hp, hr, rfl⟩

/-- C5 witness: extending the fixture's mapped `top`/`single_press` pair
appends to its command list without adding an entry; registering the unmapped
`left`/`double_press` pair appends one new entry at the end. -/
theorem register_button_semantics_witness :
    register_button configW "top" .single_press ["dev/sps/io/uuid/off"] =
      .ok { configW with mappings :=
        [⟨"top", .single_press,
          ["dev/sps/io/uuid/on", "virtual_input:other:toggle", "dev/sps/io/uuid/off"]⟩,
         ⟨"bottom", .long_press, ["virtual_input:another-uuid:toggle"]⟩] } ∧
    register_button configW "left" .double_press ["dev/sps/io/custom/off"] =
      .ok { configW with mappings := configW.mappings ++
        [⟨"left", .double_press, ["dev/sps/io/custom/off"]⟩] } := by
  constructor
  · exact (register_button_semantics configW "top" .single_press
      ["dev/sps/io/uuid/off"] (by decide)).1 []
      ⟨"top", .single_press, ["dev/sps/io/uuid/on", "virtual_input:other:toggle"]⟩
      [⟨"bottom", .long_press, ["virtual_input:another-uuid:toggle"]⟩]
      rfl (by decide) (by decide)
  · exact (register_button_semantics configW "left" .double_press
      ["dev/sps/io/custom/off"] (by decide)).2 (by decide) (by decide) (by decide)

/-- C10: when `register_button` fails (for instance because the new mapping
for an unmapped pair is given an empty command collection), the driver's held
config is exactly what it was before the call: the error is raised before the
`self._config` assignment. -/
theorem register_button_run_keeps_config_on_error (st : DriverState)
    (button : String) (action : ButtonAction) (commands : List String)
    (e : DriverErr)
    (h : (register_button_run st button action commands).2 = some e) :
    (register_button_run st button action commands).1 = st := by
  unfold register_button_run at h ⊢
  cases hr : register_button st.config button action commands <;> simp [hr] at h ⊢

/-- C10 witness: registering the unmapped `left`/`double_press` pair with an
empty command list fails the `ButtonMapping` invariant and leaves the held
config untouched. -/
theorem register_button_run_keeps_config_on_error_witness :
    (register_button_run ⟨configW⟩ "left" .double_press []).2 =
      some (.configuration
        "Button mapping for left/double_press must define commands") ∧
    (register_button_run ⟨configW⟩ "left" .double_press []).1 = ⟨configW⟩ :=
  ⟨by decide,
   register_button_run_keeps_config_on_error ⟨configW⟩ "left" .double_press []
     (.configuration "Button mapping for left/double_press must define commands")
     (by decide)⟩

theorem dispatch_commands_append_ok (client : LoxoneClient) (session : Session)
    (l1 l2 : List String) (h : (dispatch_commands client session l1).2 = none) :
    dispatch_commands client session (l1 ++ l2) =
      ((dispatch_commands client session l1).1 ++
        (dispatch_commands client session l2).1,
       (dispatch_commands client session l2).2) := by
  induction l1 with
  | nil => simp [dispatch_commands]
  | cons c cs ih =>
    rw [List.cons_append]
    cases hd : dispatchOne client session c with
    | mk t e =>
      cases e with
      | some e' => exfalso; simp [dispatch_commands, hd] at h
      | none =>
        have h' : (dispatch_commands client session cs).2 = none := by
          simpa [dispatch_commands, hd] using h
        simp [dispatch_commands, hd, ih h', List.append_assoc]

theorem dispatch_commands_append_err (client : LoxoneClient) (session : Session)
    (l1 l2 : List String) (e : DriverErr)
    (h : (dispatch_commands client session l1).2 = some e) :
    dispatch_commands client session (l1 ++ l2) =
      dispatch_commands client session l1 := by
  induction l1 with
  | nil => simp [dispatch_commands] at h
  | cons c cs ih =>
    rw [List.cons_append]
    cases hd : dispatchOne client session c with
    | mk t e' =>
      cases e' with
      | some e'' => simp [dispatch_commands, hd]
      | none =>
        have h' : (dispatch_commands client session cs).2 = some e := by
          simpa [dispatch_commands, hd] using h
        simp [dispatch_commands, hd, ih h']

theorem dispatchMappings_eq_flatten (client : LoxoneClient) (session : Session)
    (ms : List ButtonMapping) :
    dispatchMappings client session ms =
      dispatch_commands client session ((ms.map ButtonMapping.commands).flatten) := by
  induction ms with
  | nil => rfl
  | cons m rest ih =>
    rw [List.map_cons, List.flatten_cons]
    cases hd : dispatch_commands client session m.commands with
    | mk t e =>
      cases e with
      | some e' =>
        rw [dispatch_commands_append_err client session _ _ e' (by rw [hd])]
        simp [dispatchMappings, hd]
      | none =>
        rw [dispatch_commands_append_ok client session _ _ (by rw [hd])]
        simp [dispatchMappings, hd, ih]

/-- C1: for every event `handle_event` dispatches whose mapping resolves, if a
command's transport call raises a `TransportError` while every earlier command
of the event succeeded, then the transport trace of the whole event is exactly
the trace of the earlier commands followed by the failing command's calls — no
transport call happens for any later command, neither later in the same
mapping's list nor in any later matching mapping (the concatenation
`(ms.map commands).flatten` spans all resolved mappings in order) — and the
error propagates to the caller. -/
theorem handle_event_fail_fast (client : LoxoneClient) (session : Session)
    (cfg : DriverConfig) (button : String) (action : ButtonAction)
    (ms : List ButtonMapping) (l1 l2 : List String) (c : String)
    (t1 tc : List String) (msg : String)
    (hres : cfg.resolve button action = .ok ms)
    (hflat : (ms.map ButtonMapping.commands).flatten = l1 ++ c :: l2)
    (h1 : dispatch_commands client session l1 = (t1, none))
    (hc : dispatchOne client session c = (tc, some (.transport msg))) :
    handle_event client session cfg button (.action action) =
      (t1 ++ tc, some (.transport msg)) := by
  unfold handle_event
  simp only [hres]
  rw [dispatchMappings_eq_flatten, hflat]
  rw [dispatch_commands_append_ok client session _ _ (by rw [h1])]
  have hcl : dispatch_commands client session (c :: l2) = (tc, some (.transport msg)) := by
    simp [dispatch_commands, hc]
  rw [h1, hcl]

/-- C1 witness: with a session failing the first command of the fixture's
`top` mapping with HTTP 500, the event issues exactly that one transport call,
skips the mapping's second command, and propagates the transport error. -/
theorem handle_event_fail_fast_witness :
    handle_event clientW sessionFail configW "top" (.action .single_press) =
      (["http://loxone.local/dev/sps/io/uuid/on"],
       some (.transport "Loxone command dev/sps/io/uuid/on failed with status 500")) :=
  handle_event_fail_fast clientW sessionFail configW "top" .single_press
    [⟨"top", .single_press, ["dev/sps/io/uuid/on", "virtual_input:other:toggle"]⟩]
    [] ["virtual_input:other:toggle"] "dev/sps/io/uuid/on"
    [] ["http://loxone.local/dev/sps/io/uuid/on"]
    "Loxone command dev/sps/io/uuid/on failed with status 500"
    (by rfl) (by rfl) (by rfl) (by rfl)

/-- C2 counterexample: a `virtual_input:` command with four colon-separated
segments does not fail with `MalformedCommand` — `split(":", 2)` caps the
split at three parts, so interpretation succeeds with the remaining colons
folded into the value. -/
theorem interpret_four_segments_succeeds :
    (splitColon "virtual_input:a:b:c").length = 4 ∧
    pyStartsWith "virtual_input:a:b:c" "virtual_input:" = true ∧
    interpret "virtual_input:a:b:c" = .ok (.virtual_input "a" "b:c") := by
  refine ⟨by decide, by decide, by rfl⟩

/-- C2 amended: for a trimmed nonempty command starting with the literal
`virtual_input:` prefix, interpretation succeeds exactly when the string has
three or more colon-separated segments, yielding the second segment as the
control id and the remaining segments rejoined with colons as the value; a
two-segment string fails with the `MalformedCommand` `ConfigurationError`; a
string without the prefix passes through unchanged as a raw command. -/
theorem interpret_segment_grammar (s : String) :
    (pyStartsWith s "virtual_input:" = true →
      (∀ a b rest, splitColon s = a :: b :: rest → rest ≠ [] →
        interpret s = .ok (.virtual_input b (rejoinColon rest))) ∧
      (∀ a b, splitColon s = [a, b] →
        interpret s = .error (.configuration
          "virtual_input commands must be formatted as virtual_input:<uuid>:<value>"))) ∧
    (pyStartsWith s "virtual_input:" = false → interpret s = .ok (.raw s)) := by
  have hdata : ∀ parts, splitColon s = parts →
      splitCharL ':' s.data = parts.map String.data := by
    intro parts hp
    unfold splitColon at hp
    have h2 := congrArg (List.map String.data) hp
    rwa [map_data_mk] at h2
  constructor
  · intro hvi
    constructor
    · intro a b rest hsplit hrest
      obtain ⟨r0, rtail, rfl⟩ := List.exists_cons_of_ne_nil hrest
      have hc := hdata _ hsplit
      unfold interpret splitColonMax2
      rw [hvi, if_pos rfl, hc]
      simp [rejoinColon]
    · intro a b hsplit
      have hc := hdata _ hsplit
      unfold interpret splitColonMax2
      rw [hvi, if_pos rfl, hc]
      simp
  · intro hvi
    unfold interpret
    rw [hvi]
    simp

/-- C2 amended witness: the three grammar cases at the spec's examples, plus a
four-segment command resolving through the rejoined value. -/
theorem interpret_segment_grammar_witness :
    interpret "virtual_input:abc:on" = .ok (.virtual_input "abc" "on") ∧
    interpret "virtual_input:abc" = .error (.configuration
      "virtual_input commands must be formatted as virtual_input:<uuid>:<value>") ∧
    interpret "dev/sps/io/x/on" = .ok (.raw "dev/sps/io/x/on") := by
  refine ⟨?_, ?_, ?_⟩
  · have h := ((interpret_segment_grammar "virtual_input:abc:on").1 (by decide)).1
      "virtual_input" "abc" ["on"] (by decide) (by decide)
    rw [h]; rfl
  · exact ((interpret_segment_grammar "virtual_input:abc").1 (by decide)).2
      "virtual_input" "abc" (by decide)
  · exact (interpret_segment_grammar "dev/sps/io/x/on").2 (by decide)

/-- C9 counterexample: a single-string `commands` value is wrapped as a
one-element tuple unchanged — `" x "` keeps its surrounding whitespace in the
constructed mapping, though its trimmed form is `"x"`. -/
theorem parse_mapping_single_string_untrimmed :
    parse_mapping [("button", .str "b"), ("action", .str "single_press"),
                   ("commands", .str " x ")] =
      .ok ⟨"b", .single_press, [" x "]⟩ ∧
    pyStrip " x " = "x" := by
  refine ⟨by rfl, by decide⟩

/-- C9 amended: when the `commands` field is a list, every element is passed
through `str(...).strip()` and entries that are empty after trimming are
dropped; a single-string `commands` field, however, is wrapped as a
one-element command tuple as is (not trimmed, not dropped when empty). -/
theorem parse_mapping_command_shapes (data : List (String × JVal))
    (m : ButtonMapping) (h : parse_mapping data = .ok m) :
    (∀ s, jGet data "commands" = some (.str s) → m.commands = [s]) ∧
    (∀ xs, jGet data "commands" = some (.arr xs) →
      m.commands = (xs.map (fun c => pyStrip (pyStr c))).filter (fun c => c ≠ "")) := by
  constructor
  · intro s hv
    unfold parse_mapping at h
    rw [hv] at h
    cases hfv : ButtonAction.from_value
        (pyLower (pyStrip (pyStr ((jGet data "action").getD (.str ""))))) with
    | error e => simp [hfv, Bind.bind, Except.bind] at h
    | ok a =>
      simp only [hfv, Bind.bind, Except.bind] at h
      exact (buttonMapping_make_ok_iff.mp h).2.2 ▸ rfl
  · intro xs hv
    unfold parse_mapping at h
    rw [hv] at h
    cases hfv : ButtonAction.from_value
        (pyLower (pyStrip (pyStr ((jGet data "action").getD (.str ""))))) with
    | error e => simp [hfv, Bind.bind, Except.bind] at h
    | ok a =>
      simp only [hfv, Bind.bind, Except.bind] at h
      exact (buttonMapping_make_ok_iff.mp h).2.2 ▸ rfl

/-- C9 amended witness: a list-form `commands` value is trimmed with empties
dropped, while the single-string form keeps its whitespace. -/
theorem parse_mapping_command_shapes_witness :
    (parse_mapping [("button", .str "b"), ("action", .str "single_press"),
                    ("commands", .arr [.str " x ", .str "  ", .str "y"])] =
      .ok ⟨"b", .single_press, ["x", "y"]⟩) ∧
    (["x", "y"] : List String) =
      ([JVal.str " x ", .str "  ", .str "y"].map
        (fun c => pyStrip (pyStr c))).filter (fun c => c ≠ "") := by
  refine ⟨by rfl, ?_⟩
  exact (parse_mapping_command_shapes
    [("button", .str "b"), ("action", .str "single_press"),
     ("commands", .arr [.str " x ", .str "  ", .str "y"])]
    ⟨"b", .single_press, ["x", "y"]⟩ (by rfl)).2
    [.str " x ", .str "  ", .str "y"] (by rfl)

/-- C6: with a nonempty structure path and a reachable host, `fetch_structure`
fails with a `TransportError` if and only if the response status is 400 or
more, or the body is empty or whitespace-only (a missing body attribute reads
as empty), or the body is rejected by the JSON parser; otherwise it returns
the parsed JSON document of the response body. -/
theorem fetch_structure_error_iff (c : LoxoneClient) (session : Session)
    (parseJson : String → Option JVal) (path : String) (resp : HttpResponse)
    (hpath : path ≠ "")
    (hresp : session (urljoin c.base_url (pyLstripSlash path)) = .ok resp) :
    ((∃ msg, c.fetch_structure session parseJson path = .error (.transport msg)) ↔
      (400 ≤ resp.status_code ∨ pyStrip (resp.data.getD "") = "" ∨
       parseJson (resp.data.getD "") = none)) ∧
    (∀ doc, resp.status_code < 400 → pyStrip (resp.data.getD "") ≠ "" →
      parseJson (resp.data.getD "") = some doc →
      c.fetch_structure session parseJson path = .ok doc) := by
  unfold LoxoneClient.fetch_structure
  rw [if_neg hpath]
  simp only [hresp]
  constructor
  · by_cases hst : 400 ≤ resp.status_code
    · simp [hst]
    · rw [if_neg hst]
      by_cases hstrip : pyStrip (resp.data.getD "") = ""
      · simp [hstrip, hst]
      · rw [if_neg hstrip]
        cases hp : parseJson (resp.data.getD "") <;> simp [hst, hstrip, hp]
  · intro doc h1 h2 h3
    rw [if_neg (by omega), if_neg h2, h3]

/-- C6 witness: a 200 response with body `{}` parses into the empty object. -/
theorem fetch_structure_error_iff_witness :
    LoxoneClient.fetch_structure clientW sessionStructure parseJsonW
      "data/LoxAPP3.json" = .ok (.obj []) :=
  (fetch_structure_error_iff clientW sessionStructure parseJsonW
    "data/LoxAPP3.json" ⟨200, some "{}"⟩ (by decide) (by rfl)).2
    (.obj []) (by decide) (by decide) (by rfl)

theorem splitCharL_ne_nil (sep : Char) (l : List Char) : splitCharL sep l ≠ [] := by
  cases l with
  | nil => simp [splitCharL]
  | cons c cs =>
    unfold splitCharL
    by_cases h : c = sep
    · simp [h]
    · rw [if_neg h]
      cases splitCharL sep cs <;> simp

theorem splitCharL_append_cons (sep : Char) (a b : List Char) (ha : sep ∉ a) :
    splitCharL sep (a ++ sep :: b) = a :: splitCharL sep b := by
  induction a with
  | nil => simp [splitCharL]
  | cons x xs ih =>
    have hx : ¬ x = sep := fun h => ha (by simp [h])
    have ih' := ih (fun h => ha (by simp [h]))
    have step : splitCharL sep (x :: (xs ++ sep :: b)) =
        match splitCharL sep (xs ++ sep :: b) with
        | [] => [[x]]
        | h :: t => (x :: h) :: t := by
      simp only [splitCharL, if_neg hx]
    rw [List.cons_append, step, ih']

theorem joinCharL_splitCharL (sep : Char) (l : List Char) :
    joinCharL sep (splitCharL sep l) = l := by
  induction l with
  | nil => rfl
  | cons c cs ih =>
    by_cases hc : c = sep
    · subst hc
      simp only [splitCharL, if_pos rfl]
      cases hs : splitCharL c cs with
      | nil => exact absurd hs (splitCharL_ne_nil c cs)
      | cons h t =>
        rw [hs] at ih
        simp only [joinCharL]
        rw [ih]
        rfl
    · simp only [splitCharL, if_neg hc]
      cases hs : splitCharL sep cs with
      | nil => exact absurd hs (splitCharL_ne_nil sep cs)
      | cons h t =>
        rw [hs] at ih
        cases t with
        | nil =>
          simp only [joinCharL] at ih ⊢
          rw [ih]
        | cons t0 ts =>
          simp only [joinCharL] at ih ⊢
          rw [List.cons_append, ih]

theorem validSchemeToken_ne_nil {s : List Char} (h : validSchemeToken s = true) :
    s ≠ [] := by
  intro hnil
  rw [hnil] at h
  simp [validSchemeToken] at h

theorem validSchemeToken_no_colon {s : List Char} (h : validSchemeToken s = true) :
    ':' ∉ s := by
  intro hmem
  cases s with
  | nil => cases hmem
  | cons c cs =>
    simp only [validSchemeToken, Bool.and_eq_true, List.all_eq_true] at h
    have h2 := h.2 ':' hmem
    exact absurd h2 (by decide)

theorem takeWhile_append_all {α : Type} {p : α → Bool} (xs ys : List α)
    (h : ∀ x ∈ xs, p x = true) :
    (xs ++ ys).takeWhile p = xs ++ ys.takeWhile p := by
  induction xs with
  | nil => simp
  | cons x l ih =>
    rw [List.cons_append, List.takeWhile_cons, if_pos (h x (by simp)),
      ih (fun a ha => h a (by simp [ha]))]
    rfl

theorem lstripSlashL_head (l : List Char) (c : Char) (cs : List Char)
    (h : lstripSlashL l = c :: cs) : ¬ c = '/' := by
  induction l with
  | nil => simp [lstripSlashL] at h
  | cons x xs ih =>
    by_cases hx : x = '/'
    · exact ih (by simpa [lstripSlashL, List.dropWhile_cons, hx] using h)
    · have h2 : lstripSlashL (x :: xs) = x :: xs := by
        simp [lstripSlashL, List.dropWhile_cons, hx]
      rw [h2] at h
      injection h with h1 _
      rw [← h1]
      exact hx

theorem rel_subset_netloc {s : List Char} (h : uses_relative.contains s = true) :
    uses_netloc.contains s = true := by
  rw [List.elem_iff] at h ⊢
  have hall : ∀ x ∈ uses_relative, x ∈ uses_netloc := by decide
  exact hall s h

theorem urlsplitL_netloc_clean (url d : List Char) (ch : Char)
    (h : ch ∈ (urlsplitL url d).2.1) : isNetlocEnd ch = false := by
  unfold urlsplitL at h
  rcases hss : schemeSplitL url with _ | ⟨s, r⟩ <;> simp only [hss] at h
  · by_cases hc : url.take 2 = ['/', '/']
    · rw [if_pos hc] at h
      have h2 := List.mem_takeWhile_imp h
      simpa using h2
    · rw [if_neg hc] at h
      simp at h
  · by_cases hc : r.take 2 = ['/', '/']
    · rw [if_pos hc] at h
      have h2 := List.mem_takeWhile_imp h
      simpa using h2
    · rw [if_neg hc] at h
      simp at h

theorem urlHost_urlunsplitL (s n p : List Char)
    (hvs : validSchemeToken s = true)
    (hn : n ≠ [])
    (hclean : ∀ ch ∈ n, isNetlocEnd ch = false) :
    (urlsplitL (urlunsplitL s n p) []).2.1 = n := by
  have hsne : s ≠ [] := validSchemeToken_ne_nil hvs
  have hcolon : ':' ∉ s := validSchemeToken_no_colon hvs
  obtain ⟨p', hform, hp'⟩ : ∃ p',
      urlunsplitL s n p = s ++ ':' :: ('/' :: '/' :: (n ++ p')) ∧
      (p' = [] ∨ ∃ t, p' = '/' :: t) := by
    refine ⟨if p ≠ [] ∧ p.take 1 ≠ ['/'] then '/' :: p else p, ?_, ?_⟩
    · unfold urlunsplitL
      rw [if_pos (Or.inl hn : n ≠ [] ∨ p.take 2 = ['/', '/']), if_pos hsne]
    · by_cases hb : p ≠ [] ∧ p.take 1 ≠ ['/']
      · rw [if_pos hb]
        exact Or.inr ⟨p, rfl⟩
      · rw [if_neg hb]
        rw [not_and_or] at hb
        rcases hb with hb | hb
        · exact Or.inl (by simpa using hb)
        · have hb2 : p.take 1 = ['/'] := by simpa using hb
          cases p with
          | nil => exact Or.inl rfl
          | cons p0 ps =>
            simp only [List.take, List.cons.injEq] at hb2
            exact Or.inr ⟨ps, by rw [hb2.1]⟩
  rw [hform]
  have hss : schemeSplitL (s ++ ':' :: ('/' :: '/' :: (n ++ p'))) =
      some (s.map Char.toLower, '/' :: '/' :: (n ++ p')) := by
    unfold schemeSplitL
    rw [splitCharL_append_cons ':' s _ hcolon]
    cases hrest : splitCharL ':' ('/' :: '/' :: (n ++ p')) with
    | nil => exact absurd hrest (splitCharL_ne_nil _ _)
    | cons h t =>
      simp only [if_pos hvs]
      rw [← hrest, joinCharL_splitCharL]
  unfold urlsplitL
  simp only [hss]
  rw [if_pos (by rfl)]
  simp only [List.drop]
  have htake : (n ++ p').takeWhile (fun c => !isNetlocEnd c) = n := by
    rw [takeWhile_append_all n p' (fun x hx => by simp [hclean x hx])]
    rcases hp' with rfl | ⟨t, rfl⟩
    · simp
    · rw [List.takeWhile_cons, if_neg (by decide)]
      simp
  rw [htake]

theorem urljoinL_relative_host (nb c' : List Char) (bs bn bp : List Char)
    (hnb : nb ≠ [])
    (hsplit : urlsplitL nb [] = (bs, bn, bp))
    (hvs : validSchemeToken bs = true)
    (hrel : uses_relative.contains bs = true)
    (hbn : bn ≠ [])
    (hc : schemeSplitL c' = none)
    (hhead : ∀ h t, c' = h :: t → ¬ h = '/') :
    (urlsplitL (urljoinL nb c') []).2.1 = bn := by
  have hclean : ∀ ch ∈ bn, isNetlocEnd ch = false := by
    intro ch hch
    have h2 := urlsplitL_netloc_clean nb [] ch (by rw [hsplit]; exact hch)
    exact h2
  by_cases hcc : c' = []
  · subst hcc
    unfold urljoinL
    rw [if_neg hnb, if_pos rfl, hsplit]
  · have hne : ¬ c'.take 2 = ['/', '/'] := by
      cases c' with
      | nil => simp
      | cons h t =>
        have hh := hhead h t rfl
        intro habs
        cases t <;> simp_all [List.take]
    have hu : urlsplitL c' bs = (bs, [], c') := by
      unfold urlsplitL
      simp only [hc]
      rw [if_neg hne]
    unfold urljoinL
    simp only [hsplit, hu]
    rw [if_neg hnb, if_neg hcc]
    rw [if_neg (by simp [List.elem_iff.mp hrel])]
    rw [if_neg (by simp)]
    rw [if_pos (rel_subset_netloc hrel), if_neg hcc]
    exact urlHost_urlunsplitL bs bn _ hvs hbn hclean

theorem char_toNat_inj {a b : Char} (h : a.toNat = b.toNat) : a = b := by
  have h2 := congrArg Char.ofNat h
  rwa [Char.ofNat_toNat, Char.ofNat_toNat] at h2

theorem lexLt_trans (a : List Char) : ∀ b c, lexLt a b = true →
    lexLt b c = true → lexLt a c = true := by
  induction a with
  | nil =>
    intro b c hab hbc
    cases c with
    | nil =>
      cases b with
      | nil => simp [lexLt] at hab
      | cons b0 bs => simp [lexLt] at hbc
    | cons c0 cs => simp [lexLt]
  | cons a0 as ih =>
    intro b c hab hbc
    cases b with
    | nil => simp [lexLt] at hab
    | cons b0 bs =>
      cases c with
      | nil => simp [lexLt] at hbc
      | cons c0 cs =>
        simp only [lexLt] at hab hbc ⊢
        rcases Nat.lt_trichotomy a0.toNat b0.toNat with h1 | h1 | h1 <;>
          rcases Nat.lt_trichotomy b0.toNat c0.toNat with h2 | h2 | h2
        · simp [show a0.toNat < c0.toNat from by omega]
        · simp [show a0.toNat < c0.toNat from by omega]
        · simp [show ¬ b0.toNat < c0.toNat from by omega, h2] at hbc
        · simp [show a0.toNat < c0.toNat from by omega]
        · simp only [show ¬ a0.toNat < b0.toNat from by omega,
            show ¬ b0.toNat < a0.toNat from by omega, if_false] at hab
          simp only [show ¬ b0.toNat < c0.toNat from by omega,
            show ¬ c0.toNat < b0.toNat from by omega, if_false] at hbc
          simp only [show ¬ a0.toNat < c0.toNat from by omega,
            show ¬ c0.toNat < a0.toNat from by omega, if_false]
          exact ih bs cs hab hbc
        · simp [show ¬ b0.toNat < c0.toNat from by omega, h2] at hbc
        · simp [show ¬ a0.toNat < b0.toNat from by omega, h1] at hab
        · simp [show ¬ a0.toNat < b0.toNat from by omega, h1] at hab
        · simp [show ¬ a0.toNat < b0.toNat from by omega, h1] at hab

theorem lexLt_both_false (a : List Char) : ∀ b, lexLt a b = false →
    lexLt b a = false → a = b := by
  induction a with
  | nil =>
    intro b h1 _
    cases b with
    | nil => rfl
    | cons b0 bs => simp [lexLt] at h1
  | cons a0 as ih =>
    intro b h1 h2
    cases b with
    | nil => simp [lexLt] at h2
    | cons b0 bs =>
      simp only [lexLt] at h1 h2
      rcases Nat.lt_trichotomy a0.toNat b0.toNat with h | h | h
      · simp [h] at h1
      · have heq : a0 = b0 := char_toNat_inj h
        have has : lexLt as bs = false := by
          simpa [show ¬ a0.toNat < b0.toNat from by omega,
            show ¬ b0.toNat < a0.toNat from by omega] using h1
        have hbs : lexLt bs as = false := by
          simpa [show ¬ b0.toNat < a0.toNat from by omega,
            show ¬ a0.toNat < b0.toNat from by omega] using h2
        rw [heq, ih bs has hbs]
      · simp [h] at h2

theorem strLtB_trans {a b c : String} (hab : strLtB a b = true)
    (hbc : strLtB b c = true) : strLtB a c = true :=
  lexLt_trans a.data b.data c.data hab hbc

theorem strLtB_both_false {a b : String} (h1 : strLtB a b = false)
    (h2 : strLtB b a = false) : a = b := by
  apply String.ext
  exact lexLt_both_false a.data b.data h1 h2

theorem strLeB_trans {a b c : String} (hab : strLeB a b = true)
    (hbc : strLeB b c = true) : strLeB a c = true := by
  unfold strLeB at *
  simp only [Bool.or_eq_true, beq_iff_eq] at *
  rcases hab with h1 | h1 <;> rcases hbc with h2 | h2
  · exact Or.inl (strLtB_trans h1 h2)
  · exact Or.inl (h2 ▸ h1)
  · subst h1; exact Or.inl h2
  · exact Or.inr (h1.trans h2)

theorem sortLe_trans (a b c : LoxoneFunction) (hab : sortLe a b = true)
    (hbc : sortLe b c = true) : sortLe a c = true := by
  unfold sortLe at *
  simp only [Bool.or_eq_true, Bool.and_eq_true, beq_iff_eq] at *
  rcases hab with h1 | ⟨h1, h2⟩ <;> rcases hbc with h3 | ⟨h3, h4⟩
  · exact Or.inl (strLtB_trans h1 h3)
  · exact Or.inl (h3 ▸ h1)
  · exact Or.inl (h1 ▸ h3)
  · exact Or.inr ⟨h1.trans h3, strLeB_trans h2 h4⟩

theorem sortLe_total (a b : LoxoneFunction) : (sortLe a b || sortLe b a) = true := by
  unfold sortLe strLeB
  simp only [Bool.or_eq_true, Bool.and_eq_true, beq_iff_eq]
  cases h1 : strLtB (sortKey a).1 (sortKey b).1
  · cases h2 : strLtB (sortKey b).1 (sortKey a).1
    · have hre : (sortKey a).1 = (sortKey b).1 := strLtB_both_false h1 h2
      cases h3 : strLtB (sortKey a).2 (sortKey b).2
      · cases h4 : strLtB (sortKey b).2 (sortKey a).2
        · have hne : (sortKey a).2 = (sortKey b).2 := strLtB_both_false h3 h4
          exact Or.inl (Or.inr ⟨hre, Or.inr hne⟩)
        · exact Or.inr (Or.inr ⟨hre.symm, Or.inl rfl⟩)
      · exact Or.inl (Or.inr ⟨hre, Or.inl rfl⟩)
    · exact Or.inr (Or.inl rfl)
  · exact Or.inl (Or.inl rfl)

/-- C8: every discovery result is sorted ascending by the key (room name with
the empty string substituted when the room is absent, then the lowercased
function name), whatever the traversal order of the source tables; under this
key order the functions without a room precede every nonempty room name. -/
theorem discover_result_sorted (doc : List (String × JVal)) (remote_name : String)
    (fns : List LoxoneFunction)
    (h : discoverFromStructure doc remote_name = some fns) :
    fns.Pairwise (fun a b =>
      strLtB (sortKey a).1 (sortKey b).1 = true ∨
      ((sortKey a).1 = (sortKey b).1 ∧ strLeB (sortKey a).2 (sortKey b).2 = true)) := by
  unfold discoverFromStructure at h
  cases hu : discoverUnsorted doc remote_name with
  | none => rw [hu] at h; simp at h
  | some l =>
    rw [hu] at h
    have h' : pySort sortLe l = fns := by simpa using h
    subst h'
    have hp := pairwise_pySort sortLe sortLe_trans sortLe_total l
    exact hp.imp (fun hab => by
      simpa [sortLe, Bool.or_eq_true, Bool.and_eq_true, beq_iff_eq] using hab)

/-- C8 witness: with no matching remote entry, the fixture document's two
functions both survive and are sorted with the room-less function first. -/
theorem discover_result_sorted_witness :
    discoverFromStructure structureW "Nobody" =
      some [⟨"Other Control", "uuid-2-action", "Dimmer", none, none⟩,
            ⟨"Living Room Lights", "uuid-1-action", "Switch",
             some "Living Room", some "Lighting"⟩] ∧
    ([⟨"Other Control", "uuid-2-action", "Dimmer", none, none⟩,
      ⟨"Living Room Lights", "uuid-1-action", "Switch",
       some "Living Room", some "Lighting"⟩] : List LoxoneFunction).Pairwise
      (fun a b =>
        strLtB (sortKey a).1 (sortKey b).1 = true ∨
        ((sortKey a).1 = (sortKey b).1 ∧ strLeB (sortKey a).2 (sortKey b).2 = true)) :=
  ⟨by rfl, discover_result_sorted structureW "Nobody" _ (by rfl)⟩

theorem controlsScan_no_match (remote_name : String) (l : List JVal)
    (h : ∀ r ∈ l, nameMatches remote_name r = false) :
    controlsScan remote_name l = none := by
  induction l with
  | nil => rfl
  | cons r rest ih =>
    have hr := h r (by simp)
    have ih' := ih (fun x hx => h x (by simp [hx]))
    cases r with
    | obj fields =>
      simp only [nameMatches, decide_eq_false_iff_not] at hr
      simp only [controlsScan]
      rw [if_neg hr]
      exact ih'
    | null => exact ih'
    | bool b => exact ih'
    | num n => exact ih'
    | str s => exact ih'
    | arr xs => exact ih'

theorem controlsScan_first_match (remote_name : String) (l1 l2 : List JVal)
    (fields : List (String × JVal)) (S : List String)
    (h1 : ∀ x ∈ l1, nameMatches remote_name x = false)
    (hm : nameMatches remote_name (.obj fields) = true)
    (hS : remoteAllowList fields = some S) :
    controlsScan remote_name (l1 ++ .obj fields :: l2) = some S := by
  induction l1 with
  | nil =>
    simp only [List.nil_append]
    simp only [nameMatches, decide_eq_true_eq] at hm
    simp only [controlsScan]
    rw [if_pos hm, hS]
  | cons r rest ih =>
    have hr := h1 r (by simp)
    have ih' := ih (fun x hx => h1 x (by simp [hx]))
    rw [List.cons_append]
    cases r with
    | obj fields2 =>
      simp only [nameMatches, decide_eq_false_iff_not] at hr
      simp only [controlsScan]
      rw [if_neg hr]
      exact ih'
    | null => exact ih'
    | bool b => exact ih'
    | num n => exact ih'
    | str s => exact ih'
    | arr xs => exact ih'

theorem buildEntries_filter (rooms cats : List (String × String))
    (pass : JVal → Bool) (l : List (JVal × JVal)) :
    buildEntries rooms cats pass l =
      buildEntries rooms cats (fun _ => true)
        (l.filter (fun kv => pass kv.1)) := by
  induction l with
  | nil => rfl
  | cons kv rest ih =>
    obtain ⟨u, c⟩ := kv
    by_cases hp : pass u = true
    · rw [List.filter_cons_of_pos (by simpa using hp)]
      simp only [buildEntries]
      rw [if_pos hp, if_pos trivial]
      cases c <;> simp [ih]
    · rw [List.filter_cons_of_neg (by simpa using hp)]
      simp only [buildEntries]
      rw [if_neg hp]
      exact ih

/-- C7: the allow-list semantics of discovery.  When the document has no
remotes table, or no remotes entry passes the name guard for the scope name,
the resolved allow-list is absent; when the first name-matching entry carries
a control-id collection, that collection is the allow-list.  The discovery
loop then builds a function for exactly the controls passing the filter — all
of them when the allow-list is absent (the filter is constantly true) — and
skips every other control; the returned sequence is a permutation (the sorted
arrangement) of what the loop builds. -/
theorem discovery_allow_list_semantics (doc : List (String × JVal))
    (remote_name : String) :
    (remotesEntries doc = none → controls_for_remote doc remote_name = none) ∧
    (∀ entries, remotesEntries doc = some entries →
      (∀ r ∈ entries, nameMatches remote_name r = false) →
      controls_for_remote doc remote_name = none) ∧
    (∀ l1 fields l2 S, remotesEntries doc = some (l1 ++ .obj fields :: l2) →
      (∀ x ∈ l1, nameMatches remote_name x = false) →
      nameMatches remote_name (.obj fields) = true →
      remoteAllowList fields = some S →
      controls_for_remote doc remote_name = some S) ∧
    (∀ controls, extract_controls doc = some controls →
      discoverUnsorted doc remote_name =
        buildEntries (map_entities doc "rooms") (map_entities doc "categories")
          (fun _ => true)
          (controls.filter (fun kv =>
            passFilter (controls_for_remote doc remote_name) kv.1))) ∧
    (controls_for_remote doc remote_name = none →
      ∀ kv, passFilter (controls_for_remote doc remote_name) kv = true) ∧
    (∀ l, discoverUnsorted doc remote_name = some l →
      ∃ fns, discoverFromStructure doc remote_name = some fns ∧ fns.Perm l) := by
  refine ⟨?_, ?_, ?_, ?_, ?_, ?_⟩
  · intro h
    unfold controls_for_remote
    rw [h]
  · intro entries he hnone
    unfold controls_for_remote
    rw [he]
    exact controlsScan_no_match remote_name entries hnone
  · intro l1 fields l2 S he h1 hm hS
    unfold controls_for_remote
    rw [he]
    exact controlsScan_first_match remote_name l1 l2 fields S h1 hm hS
  · intro controls hctl
    simp only [discoverUnsorted, hctl]
    by_cases hemp : controls.isEmpty = true
    · rw [if_pos hemp]
      rw [List.isEmpty_iff.mp hemp]
      rfl
    · rw [if_neg hemp]
      exact buildEntries_filter _ _ _ controls
  · intro h kv
    rw [h]
    rfl
  · intro l hl
    refine ⟨pySort sortLe l, ?_, perm_pySort sortLe l⟩
    unfold discoverFromStructure
    rw [hl]
    rfl

/-- C7 witness: the fixture's remotes entry for `Remote 3` becomes the
allow-list `["uuid-1"]`, and discovery keeps exactly the allowed control. -/
theorem discovery_allow_list_semantics_witness :
    controls_for_remote structureW "Remote 3" = some ["uuid-1"] ∧
    discoverFromStructure structureW "Remote 3" =
      some [⟨"Living Room Lights", "uuid-1-action", "Switch",
            some "Living Room", some "Lighting"⟩] := by
  constructor
  · exact (discovery_allow_list_semantics structureW "Remote 3").2.2.1
      [] [("name", .str "Remote 3"), ("controls", .arr [.str "uuid-1"])] [] ["uuid-1"]
      (by rfl) (by intro x hx; cases hx) (by decide) (by rfl)
  · rfl

/-- C3 counterexample: the host-preservation claim fails for a command that is
itself an absolute URL — `urljoin` resolves it against the base and the
transport GET targets the command's own host, not the configured one. -/
theorem execute_command_escapes_host :
    LoxoneClient.make "http://miniserver.local" "u" "p" =
      .ok ⟨"http://miniserver.local/", "u", "p"⟩ ∧
    (LoxoneClient.mk "http://miniserver.local/" "u" "p").execute_command
      sessionOK "http://evil.example/x" = (["http://evil.example/x"], none) ∧
    urlHost "http://evil.example/x" = "evil.example" ∧
    urlHost "http://miniserver.local/" = "miniserver.local" ∧
    ("evil.example" : String) ≠ "miniserver.local" := by
  refine ⟨by rfl, by rfl, by rfl, by rfl, by decide⟩

/-- C3 amended: the base URL is normalized to end with a path separator, and
construction of the client fails when the base URL is empty; the URL of the
transport GET of `execute_command` is the normalized base joined (by
`urljoin`) with the command stripped of leading slashes; and for every command
that does not itself carry a URL scheme after that stripping, the joined URL
keeps the host of the configured base URL.  A command carrying a scheme (an
absolute URL) can change the host. -/
theorem execute_command_url_and_host (b c : String) (bs bn bp : List Char)
    (hb : b ≠ "")
    (hsplit : urlsplitL (normBase b).data [] = (bs, bn, bp))
    (hvs : validSchemeToken bs = true)
    (hrel : uses_relative.contains bs = true)
    (hbn : bn ≠ [])
    (hc : schemeSplitL (lstripSlashL c.data) = none) :
    (∀ u p, LoxoneClient.make b u p = .ok ⟨normBase b, u, p⟩) ∧
    (∀ u p, LoxoneClient.make "" u p =
      .error (.usage "A base_url must be supplied for the Loxone client")) ∧
    (∀ u p session, c ≠ "" →
      ((⟨normBase b, u, p⟩ : LoxoneClient).execute_command session c).1 =
        [urljoin (normBase b) (pyLstripSlash c)]) ∧
    urlHost (urljoin (normBase b) (pyLstripSlash c)) = String.mk bn ∧
    urlHost (normBase b) = String.mk bn := by
  have hnb : (normBase b).data ≠ [] := by
    unfold normBase
    by_cases he : pyEndsWith b "/" = true
    · rw [if_pos he]
      intro h
      exact hb (String.ext h)
    · rw [if_neg he, String.data_append]
      simp
  refine ⟨?_, ?_, ?_, ?_, ?_⟩
  · intro u p
    unfold LoxoneClient.make
    rw [if_neg hb]
  · intro u p
    rfl
  · intro u p session hcne
    unfold LoxoneClient.execute_command
    rw [if_neg hcne]
    dsimp only
    cases hs : session (urljoin (normBase b) (pyLstripSlash c)) with
    | error e => simp [hs]
    | ok resp =>
      by_cases hst : 400 ≤ resp.status_code
      · simp [hs, hst]
      · simp [hs, hst]
  · have hhead : ∀ h t, lstripSlashL c.data = h :: t → ¬ h = '/' :=
      fun h t hh => lstripSlashL_head c.data h t hh
    exact congrArg String.mk
      (urljoinL_relative_host (normBase b).data (lstripSlashL c.data)
        bs bn bp hnb hsplit hvs hrel hbn hc hhead)
  · show String.mk (urlsplitL (normBase b).data []).2.1 = String.mk bn
    rw [hsplit]

/-- C3 amended witness: the test fixture's base URL and a plain relative
command: the GET URL is the join of the normalized base with the command and
its host is the configured `loxone.local`. -/
theorem execute_command_url_and_host_witness :
    ((⟨"http://loxone.local/", "user", "pass"⟩ : LoxoneClient).execute_command
      sessionOK "dev/sps/io/uuid/on").1 =
      ["http://loxone.local/dev/sps/io/uuid/on"] ∧
    urlHost "http://loxone.local/dev/sps/io/uuid/on" = "loxone.local" := by
  have h := execute_command_url_and_host "http://loxone.local" "dev/sps/io/uuid/on"
    "http".data "loxone.local".data "/".data
    (by decide) (by rfl) (by decide) (by decide) (by decide) (by rfl)
  constructor
  · have h3 := h.2.2.1 "user" "pass" sessionOK (by decide)
    calc ((⟨"http://loxone.local/", "user", "pass"⟩ : LoxoneClient).execute_command
        sessionOK "dev/sps/io/uuid/on").1
        = ((⟨normBase "http://loxone.local", "user", "pass"⟩ : LoxoneClient).execute_command
          sessionOK "dev/sps/io/uuid/on").1 := by rfl
      _ = [urljoin (normBase "http://loxone.local") (pyLstripSlash "dev/sps/io/uuid/on")] := h3
      _ = ["http://loxone.local/dev/sps/io/uuid/on"] := by rfl
  · calc urlHost "http://loxone.local/dev/sps/io/uuid/on"
        = urlHost (urljoin (normBase "http://loxone.local")
            (pyLstripSlash "dev/sps/io/uuid/on")) := by rfl
      _ = String.mk "loxone.local".data := h.2.2.2.1
      _ = "loxone.local" := by rfl

end UCR3
